import Mathlib

/-!
Verification of `typescript/infra/config/networks/testnets.ts`
(Hyperlane/Abacus testnet configuration tables) and of the
`DomainConnection` / `MultiProvider` connection registry defined in the
same file set.

The embedding is shallow:
* JS objects used as keyed maps (`Object.fromEntries`, `Object.entries`)
  become association lists over `String` keys with explicit
  first-occurrence key order and last-write-wins values;
* optional fields become `Option`;
* TS `number` fields become `Int`;
* the ethers handles (`BaseProvider`, `Signer`) are modelled with just
  the structure the registry observes: a provider has an identity and a
  readiness result, a signer has an identity and the provider it is
  currently bound to;
* mutation becomes explicit state passing (each method returns the
  updated record);
* fallible operations return `Except String`.
-/

/-- Network identifier (`ChainName` in the SDK's `types.ts`). -/
abbrev ChainName := String

/-- Fee override mapping (`ethers.Overrides`): a JS object holding
fee-related fields.  Modelled as an association list from field name to
numeric value (all override values in this file set are numeric:
`BigNumber.from(...)` constants or plain number literals). -/
abbrev Overrides := List (String × Int)

deriving instance DecidableEq for Except

/-- Model of `ethers.providers.BaseProvider` as observed by this code:
an identity plus the outcome of its `.ready` readiness check
(`Except.ok ()` = the network endpoint is reachable, `Except.error e` =
the readiness promise rejects with `e`). -/
structure Provider where
  id : Nat
  ready : Except String Unit
deriving DecidableEq, Repr

/-- Model of `ethers.Signer` as observed by this code: an identity plus
the provider handle the signer is currently bound to (absent for a
disconnected signer such as a fresh `ethers.Wallet(privatekey)`). -/
structure Signer where
  id : Nat
  provider : Option Provider
deriving DecidableEq, Repr

/-- ethers v5 `Signer.connect(provider)`: returns a NEW signer instance
bound to `provider`.  It is a pure operation — it does not mutate the
receiver (ethers documents it as "Returns a new instance of the Signer,
connected to provider", e.g. `Wallet.connect` is
`new Wallet(this, provider)`). -/
def Signer.connect (s : Signer) (p : Provider) : Signer :=
  { s with provider := some p }

/-- TS `interface IDomainConnection`: every field optional. -/
structure IDomainConnection where
  provider : Option Provider := none
  signer : Option Signer := none
  overrides : Option Overrides := none
  confirmations : Option Int := none
deriving DecidableEq, Repr

/-- TS `class DomainConnection`: provider/signer optional, overrides and
confirmations always present. -/
structure DomainConnection where
  provider : Option Provider
  signer : Option Signer
  overrides : Overrides
  confirmations : Int
deriving DecidableEq, Repr

/-- Source `constructor(dc: IDomainConnection = {})`:
`this.provider = dc.provider; this.signer = dc.signer;
this.overrides = dc.overrides ?? {}; this.confirmations = dc.confirmations ?? 0;` -/
def DomainConnection.create (dc : IDomainConnection := {}) : DomainConnection :=
  { provider := dc.provider
    signer := dc.signer
    overrides := dc.overrides.getD []
    confirmations := dc.confirmations.getD 0 }

/-- Source `registerOverrides = (overrides) => (this.overrides = overrides)`. -/
def DomainConnection.registerOverrides (dc : DomainConnection) (overrides : Overrides) :
    DomainConnection :=
  { dc with overrides := overrides }

/-- Source `registerConfirmations = (confirmations) => (this.confirmations = confirmations)`. -/
def DomainConnection.registerConfirmations (dc : DomainConnection) (confirmations : Int) :
    DomainConnection :=
  { dc with confirmations := confirmations }

/-- Source `registerProvider(provider)`:
```
if (this.signer) { this.signer.connect(provider); }
this.provider = provider;
```
Note the source calls `this.signer.connect(provider)` as a bare
expression statement: `connect` is pure (returns a new connected signer)
and the returned value is discarded, so the stored signer is left
unchanged.  The discarded computation is kept explicit below. -/
def DomainConnection.registerProvider (dc : DomainConnection) (provider : Provider) :
    DomainConnection :=
  let _discarded := dc.signer.map (fun s => s.connect provider)
  { dc with provider := some provider }

/-- Source `registerSigner(signer)`:
```
if (this.provider) { signer.connect(this.provider); }
this.signer = signer;
```
As in `registerProvider`, the result of `signer.connect(this.provider)`
is discarded; the argument `signer` itself (not a connected copy) is
stored. -/
def DomainConnection.registerSigner (dc : DomainConnection) (signer : Signer) :
    DomainConnection :=
  let _discarded := dc.provider.map (fun p => signer.connect p)
  { dc with signer := some signer }

/-- The union type `Signer | BaseProvider` returned by `getConnection`. -/
inductive Connection where
  | signer (s : Signer)
  | provider (p : Provider)
deriving DecidableEq, Repr

/-- Source `getConnection = () => this.signer ?? this.provider`. -/
def DomainConnection.getConnection (dc : DomainConnection) : Option Connection :=
  match dc.signer with
  | some s => some (Connection.signer s)
  | none => dc.provider.map Connection.provider

/-- One step of JS object insertion `obj[k] = v`: if the key is already
present its value is replaced in place (key order kept), otherwise the
pair is appended. -/
def insertEntry (m : List (String × α)) (k : String) (v : α) : List (String × α) :=
  if m.any (fun kv => kv.1 = k) then
    m.map (fun kv => if kv.1 = k then (k, v) else kv)
  else
    m ++ [(k, v)]

/-- JS `Object.fromEntries(l)`: pairs are inserted left to right, so key
order is order of first occurrence and for a duplicated key the last
value wins. -/
def fromEntries (l : List (String × α)) : List (String × α) :=
  l.foldl (fun m kv => insertEntry m kv.1 kv.2) []

/-- The constructor argument
`networks: ChainMap<Networks, IDomainConnection> | Networks[]`.
A `ChainMap` is a JS object, whose `Object.entries` has pairwise
distinct keys in insertion order; it is modelled as the underlying
entry list. -/
inductive NetworksInput where
  | list (networks : List ChainName)
  | map (networks : List (ChainName × IDomainConnection))

/-- TS `class MultiProvider extends MultiGeneric<DomainConnection, Networks>`:
the inherited state is the keyed container `chainMap` holding one
`DomainConnection` per network. -/
structure MultiProvider where
  chainMap : List (ChainName × DomainConnection)
deriving DecidableEq, Repr

/-- The `MultiProvider` constructor:
```
const params = Array.isArray(networks)
  ? networks.map((v) => [v, {}])
  : Object.entries(networks);
const providerEntries = params.map(([network, v]) => [network, new DomainConnection(v)]);
super(Object.fromEntries(providerEntries));
```
-/
def MultiProvider.construct (networks : NetworksInput) : MultiProvider :=
  let params : List (ChainName × IDomainConnection) :=
    match networks with
    | NetworksInput.list ns => ns.map (fun v => (v, {}))
    | NetworksInput.map m => m
  let providerEntries :=
    params.map (fun nv => (nv.1, DomainConnection.create nv.2))
  ⟨fromEntries providerEntries⟩

/-- Modelled from the spec: `MultiGeneric.get` (defined in `./utils`,
which is not part of the provided sources) — "returns the
ConnectionRecord for that network; fails (lookup error) if the network
identifier was not part of construction", failing loudly rather than
silently defaulting. -/
def MultiProvider.get (mp : MultiProvider) (network : ChainName) :
    Except String DomainConnection :=
  match mp.chainMap.find? (fun kv => kv.1 = network) with
  | some kv => Except.ok kv.2
  | none => Except.error ("No value found for network " ++ network)

/-- Modelled from the spec: `MultiGeneric.entries` (defined in
`./utils`) — the (identifier, record) pairs in registry iteration
order, i.e. insertion order at construction. -/
def MultiProvider.entries (mp : MultiProvider) : List (ChainName × DomainConnection) :=
  mp.chainMap

/-- Modelled from the spec: `MultiGeneric.values` (defined in
`./utils`) — all records in registry iteration order. -/
def MultiProvider.values (mp : MultiProvider) : List DomainConnection :=
  mp.chainMap.map (fun kv => kv.2)

/-- Source `getDomainConnection(network) { return this.get(network); }` -/
def MultiProvider.getDomainConnection (mp : MultiProvider) (network : ChainName) :
    Except String DomainConnection :=
  mp.get network

/-- Source `getChains(chains) { return this.entries().filter(([chain]) => chains.includes(chain)); }` -/
def MultiProvider.getChains (mp : MultiProvider) (chains : List ChainName) :
    List (ChainName × DomainConnection) :=
  mp.entries.filter (fun e => chains.contains e.1)

/-- Evaluation of `dc.provider!.ready` for one record: the non-null assertion on an
absent provider faults (reading `.ready` of `undefined`); otherwise the
provider's readiness promise is awaited. -/
def DomainConnection.providerReady (dc : DomainConnection) : Except String Unit :=
  match dc.provider with
  | none => Except.error "TypeError: Cannot read properties of undefined"
  | some p => p.ready

/-- Source `ready() { return Promise.all(this.values().map((dc) => dc.provider!.ready)); }`
`Promise.all` resolves only when every per-record readiness check
resolves and rejects as soon as any of them rejects (all-or-nothing,
underlying failure propagated). -/
def MultiProvider.ready (mp : MultiProvider) : Except String (List Unit) :=
  mp.values.foldr
    (fun dc acc =>
      match dc.providerReady with
      | Except.error e => Except.error e
      | Except.ok _ =>
        match acc with
        | Except.error e => Except.error e
        | Except.ok l => Except.ok (() :: l))
    (Except.ok [])

/-- In-place mutation of the record returned by `get(network)` (TS code
mutates through the aliased reference, e.g.
`multiProvider.getDomainConnection(n).registerConfirmations(5)`),
expressed functionally: apply `f` to the record stored under `network`,
leaving every other entry untouched. -/
def MultiProvider.updateChain (mp : MultiProvider) (network : ChainName)
    (f : DomainConnection → DomainConnection) : MultiProvider :=
  ⟨mp.chainMap.map (fun kv => if kv.1 = network then (kv.1, f kv.2) else kv)⟩

/-! ## The static testnet configuration tables -/

/-- Type `TransactionConfig` from `@abacus-network/deploy`: block
confirmations to await plus fee overrides. -/
structure TransactionConfig where
  confirmations : Int
  overrides : Overrides
deriving DecidableEq, Repr

/-- Entry `export const alfajores: TransactionConfig = { confirmations: 1, overrides: {} }` -/
def alfajores : TransactionConfig := { confirmations := 1, overrides := [] }

/-- Entry `export const fuji: TransactionConfig = { confirmations: 1, overrides: {} }` -/
def fuji : TransactionConfig := { confirmations := 1, overrides := [] }

/-- Entry `goerli`: confirmations 3, `gasPrice: BigNumber.from(10_000_000_000)`. -/
def goerli : TransactionConfig :=
  { confirmations := 3, overrides := [("gasPrice", 10000000000)] }

/-- Entry `kovan`: confirmations 3, `gasPrice: BigNumber.from(10_000_000_000)`,
`gasLimit: 15_000_000`. -/
def kovan : TransactionConfig :=
  { confirmations := 3
    overrides := [("gasPrice", 10000000000), ("gasLimit", 15000000)] }

/-- Entry `mumbai`: confirmations 3, overrides `{}`. -/
def mumbai : TransactionConfig := { confirmations := 3, overrides := [] }

/-- Entry `rinkarby`: confirmations 2, `gasPrice: 0`, `gasLimit: 600_000_000`. -/
def rinkarby : TransactionConfig :=
  { confirmations := 2, overrides := [("gasPrice", 0), ("gasLimit", 600000000)] }

/-- Entry `rinkeby`: confirmations 3, overrides `{}`. -/
def rinkeby : TransactionConfig := { confirmations := 3, overrides := [] }

/-- Entry `ropsten`: confirmations 3, `gasPrice: BigNumber.from(10_000_000_000)`. -/
def ropsten : TransactionConfig :=
  { confirmations := 3, overrides := [("gasPrice", 10000000000)] }

/-- Table `export const configs = { alfajores, fuji, goerli, kovan, mumbai,
rinkarby, rinkeby, ropsten }` as its entry list in declaration order. -/
def configs : List (String × TransactionConfig) :=
  [("alfajores", alfajores), ("fuji", fuji), ("goerli", goerli),
   ("kovan", kovan), ("mumbai", mumbai), ("rinkarby", rinkarby),
   ("rinkeby", rinkeby), ("ropsten", ropsten)]

/-! ## Helper lemmas about the JS object model -/

theorem insertEntry_of_not_mem {α : Type} {m : List (String × α)} {k : String} (v : α)
    (h : k ∉ m.map Prod.fst) : insertEntry m k v = m ++ [(k, v)] := by
  have hany : m.any (fun kv => kv.1 = k) = false := by
    rw [List.any_eq_false]
    intro kv hkv
    simp only [decide_eq_true_eq]
    intro he
    exact h (List.mem_map.mpr ⟨kv, hkv, he⟩)
  simp [insertEntry, hany]

theorem keys_insertEntry {α : Type} (m : List (String × α)) (k : String) (v : α) :
    (insertEntry m k v).map Prod.fst
      = if k ∈ m.map Prod.fst then m.map Prod.fst else m.map Prod.fst ++ [k] := by
  by_cases h : k ∈ m.map Prod.fst
  · rw [if_pos h]
    have hany : m.any (fun kv => kv.1 = k) = true := by
      rw [List.any_eq_true]
      obtain ⟨kv, hkv, he⟩ := List.mem_map.mp h
      exact ⟨kv, hkv, by simp [he]⟩
    simp only [insertEntry, hany, if_pos, List.map_map]
    apply List.map_congr_left
    intro kv _
    by_cases hk : kv.1 = k
    · simp [hk]
    · simp [hk]
  · rw [if_neg h, insertEntry_of_not_mem v h]
    simp

theorem mem_keys_insertEntry {α : Type} (m : List (String × α)) (k k' : String) (v : α) :
    k' ∈ (insertEntry m k v).map Prod.fst ↔ k' ∈ m.map Prod.fst ∨ k' = k := by
  rw [keys_insertEntry]
  by_cases h : k ∈ m.map Prod.fst
  · rw [if_pos h]
    exact ⟨Or.inl, fun hh => hh.elim id (fun he => he ▸ h)⟩
  · rw [if_neg h]
    simp

theorem nodup_keys_insertEntry {α : Type} (m : List (String × α)) (k : String) (v : α)
    (h : (m.map Prod.fst).Nodup) : ((insertEntry m k v).map Prod.fst).Nodup := by
  rw [keys_insertEntry]
  by_cases hk : k ∈ m.map Prod.fst
  · rwa [if_pos hk]
  · rw [if_neg hk, List.nodup_append]
    refine ⟨h, List.nodup_singleton k, ?_⟩
    intro a ha hb
    rw [List.mem_singleton] at hb
    exact hk (hb ▸ ha)

theorem mem_insertEntry {α : Type} (m : List (String × α)) (k : String) (v : α)
    (e : String × α) (he : e ∈ insertEntry m k v) : e ∈ m ∨ e = (k, v) := by
  unfold insertEntry at he
  by_cases h : m.any (fun kv => kv.1 = k) = true
  · rw [if_pos h] at he
    obtain ⟨kv, hkv, hkve⟩ := List.mem_map.mp he
    by_cases hk : kv.1 = k
    · right
      rw [if_pos hk] at hkve
      exact hkve.symm
    · left
      rw [if_neg hk] at hkve
      exact hkve ▸ hkv
  · rw [if_neg h, List.mem_append] at he
    rcases he with h1 | h2
    · exact Or.inl h1
    · right
      simpa using h2

theorem fromEntries_aux_eq {α : Type} :
    ∀ (l acc : List (String × α)),
      (acc.map Prod.fst ++ l.map Prod.fst).Nodup →
      l.foldl (fun m kv => insertEntry m kv.1 kv.2) acc = acc ++ l := by
  intro l
  induction l with
  | nil => intro acc _; simp
  | cons kv t ih =>
    intro acc h
    have hassoc : (acc.map Prod.fst ++ (kv :: t).map Prod.fst)
        = ((acc ++ [kv]).map Prod.fst) ++ t.map Prod.fst := by
      simp
    have hk : kv.1 ∉ acc.map Prod.fst := by
      rw [List.nodup_append] at h
      intro hmem
      exact h.2.2 hmem (by simp)
    simp only [List.foldl_cons]
    rw [insertEntry_of_not_mem kv.2 hk]
    have h2 : ((acc ++ [(kv.1, kv.2)]).map Prod.fst ++ t.map Prod.fst).Nodup := by
      rw [← hassoc]
      simpa using h
    rw [ih (acc ++ [(kv.1, kv.2)]) h2]
    simp

theorem fromEntries_of_nodup_keys {α : Type} (l : List (String × α))
    (h : (l.map Prod.fst).Nodup) : fromEntries l = l := by
  have := fromEntries_aux_eq l [] (by simpa using h)
  simpa [fromEntries] using this

theorem mem_keys_fromEntries_aux {α : Type} :
    ∀ (l acc : List (String × α)) (k : String),
      (k ∈ (l.foldl (fun m kv => insertEntry m kv.1 kv.2) acc).map Prod.fst
        ↔ k ∈ acc.map Prod.fst ∨ k ∈ l.map Prod.fst) := by
  intro l
  induction l with
  | nil => intro acc k; simp
  | cons kv t ih =>
    intro acc k
    simp only [List.foldl_cons, List.map_cons, List.mem_cons]
    rw [ih, mem_keys_insertEntry]
    tauto

theorem mem_keys_fromEntries {α : Type} (l : List (String × α)) (k : String) :
    k ∈ (fromEntries l).map Prod.fst ↔ k ∈ l.map Prod.fst := by
  have := mem_keys_fromEntries_aux l [] k
  simpa [fromEntries] using this

theorem nodup_keys_fromEntries_aux {α : Type} :
    ∀ (l acc : List (String × α)), (acc.map Prod.fst).Nodup →
      ((l.foldl (fun m kv => insertEntry m kv.1 kv.2) acc).map Prod.fst).Nodup := by
  intro l
  induction l with
  | nil => intro acc h; simpa
  | cons kv t ih =>
    intro acc h
    simp only [List.foldl_cons]
    exact ih _ (nodup_keys_insertEntry acc kv.1 kv.2 h)

theorem nodup_keys_fromEntries {α : Type} (l : List (String × α)) :
    ((fromEntries l).map Prod.fst).Nodup := by
  have := nodup_keys_fromEntries_aux l [] (by simp)
  simpa [fromEntries] using this

theorem mem_fromEntries_aux {α : Type} :
    ∀ (l acc : List (String × α)) (e : String × α),
      e ∈ l.foldl (fun m kv => insertEntry m kv.1 kv.2) acc →
      e ∈ acc ∨ e ∈ l := by
  intro l
  induction l with
  | nil => intro acc e he; exact Or.inl (by simpa using he)
  | cons kv t ih =>
    intro acc e he
    simp only [List.foldl_cons] at he
    rcases ih _ e he with h1 | h2
    · rcases mem_insertEntry acc kv.1 kv.2 e h1 with h3 | h4
      · exact Or.inl h3
      · right
        rw [h4]
        simp
    · right
      exact List.mem_cons_of_mem _ h2

theorem mem_fromEntries {α : Type} (l : List (String × α)) (e : String × α)
    (he : e ∈ fromEntries l) : e ∈ l := by
  have := mem_fromEntries_aux l [] e (by simpa [fromEntries] using he)
  simpa using this

/-! ## Helper lemmas about lookup and readiness -/

theorem providerReady_ok_iff (dc : DomainConnection) :
    dc.providerReady = Except.ok ()
      ↔ ∃ p, dc.provider = some p ∧ p.ready = Except.ok () := by
  cases h : dc.provider with
  | none => simp [DomainConnection.providerReady, h]
  | some p => simp [DomainConnection.providerReady, h]

theorem ready_list_ok_iff (xs : List DomainConnection) :
    (∃ l, xs.foldr
        (fun dc acc =>
          match dc.providerReady with
          | Except.error e => Except.error e
          | Except.ok _ =>
            match acc with
            | Except.error e => Except.error e
            | Except.ok l => Except.ok (() :: l))
        (Except.ok []) = Except.ok l)
      ↔ ∀ dc ∈ xs, dc.providerReady = Except.ok () := by
  induction xs with
  | nil => simp
  | cons dc t ih =>
    simp only [List.foldr_cons, List.forall_mem_cons]
    cases hpr : dc.providerReady with
    | error e => simp [hpr]
    | ok u =>
      cases u
      rw [← ih]
      cases hacc : t.foldr
          (fun dc acc =>
            match dc.providerReady with
            | Except.error e => Except.error e
            | Except.ok _ =>
              match acc with
              | Except.error e => Except.error e
              | Except.ok l => Except.ok (() :: l))
          (Except.ok []) with
      | error e => simp
      | ok l => simp

theorem ready_list_error_mem (xs : List DomainConnection) (e : String)
    (h : xs.foldr
        (fun dc acc =>
          match dc.providerReady with
          | Except.error e => Except.error e
          | Except.ok _ =>
            match acc with
            | Except.error e => Except.error e
            | Except.ok l => Except.ok (() :: l))
        (Except.ok []) = Except.error e) :
    ∃ dc ∈ xs, dc.providerReady = Except.error e := by
  induction xs with
  | nil => simp at h
  | cons dc t ih =>
    simp only [List.foldr_cons] at h
    cases hpr : dc.providerReady with
    | error e' =>
      rw [hpr] at h
      simp only [Except.error.injEq] at h
      exact ⟨dc, by simp, by rw [hpr, h]⟩
    | ok u =>
      rw [hpr] at h
      cases hacc : t.foldr
          (fun dc acc =>
            match dc.providerReady with
            | Except.error e => Except.error e
            | Except.ok _ =>
              match acc with
              | Except.error e => Except.error e
              | Except.ok l => Except.ok (() :: l))
          (Except.ok []) with
      | error e' =>
        rw [hacc] at h
        simp only [Except.error.injEq] at h
        obtain ⟨dc', hdc', hpr'⟩ := ih (h ▸ hacc)
        exact ⟨dc', List.mem_cons_of_mem _ hdc', hpr'⟩
      | ok l =>
        rw [hacc] at h
        simp at h

theorem get_ok_iff_mem_keys (mp : MultiProvider) (network : ChainName) :
    (∃ dc, mp.get network = Except.ok dc) ↔ network ∈ mp.chainMap.map Prod.fst := by
  constructor
  · intro ⟨dc, hdc⟩
    unfold MultiProvider.get at hdc
    cases hfind : mp.chainMap.find? (fun kv => kv.1 = network) with
    | none => rw [hfind] at hdc; exact absurd hdc (by simp)
    | some kv =>
      have hmem := List.mem_of_find?_eq_some hfind
      have hpred := List.find?_some hfind
      simp only [decide_eq_true_eq] at hpred
      exact List.mem_map.mpr ⟨kv, hmem, hpred⟩
  · intro h
    obtain ⟨kv, hkv, he⟩ := List.mem_map.mp h
    have hsome : (mp.chainMap.find? (fun kv => kv.1 = network)).isSome := by
      rw [List.find?_isSome]
      exact ⟨kv, hkv, by simp [he]⟩
    unfold MultiProvider.get
    cases hfind : mp.chainMap.find? (fun kv => kv.1 = network) with
    | none => rw [hfind] at hsome; simp at hsome
    | some kv' => exact ⟨kv'.2, rfl⟩

theorem get_error_of_not_mem_keys (mp : MultiProvider) (network : ChainName)
    (h : network ∉ mp.chainMap.map Prod.fst) :
    mp.get network = Except.error ("No value found for network " ++ network) := by
  have hfind : mp.chainMap.find? (fun kv => kv.1 = network) = none := by
    rw [List.find?_eq_none]
    intro kv hkv
    simp only [decide_eq_true_eq]
    intro he
    exact h (List.mem_map.mpr ⟨kv, hkv, he⟩)
  simp [MultiProvider.get, hfind]

theorem get_of_mem_nodup (mp : MultiProvider) (network : ChainName) (dc : DomainConnection)
    (hnodup : (mp.chainMap.map Prod.fst).Nodup) (hmem : (network, dc) ∈ mp.chainMap) :
    mp.get network = Except.ok dc := by
  unfold MultiProvider.get
  cases hfind : mp.chainMap.find? (fun kv => kv.1 = network) with
  | none =>
    rw [List.find?_eq_none] at hfind
    exact absurd (by simp : decide ((network, dc).1 = network) = true) (by simpa using hfind _ hmem)
  | some kv =>
    have hkv := List.mem_of_find?_eq_some hfind
    have hpred := List.find?_some hfind
    simp only [decide_eq_true_eq] at hpred
    have : kv = (network, dc) := by
      have h1 : kv.1 = (network, dc).1 := by simpa using hpred
      exact List.inj_on_of_nodup_map hnodup hkv hmem h1
    rw [this]

theorem get_ok_mem (mp : MultiProvider) (network : ChainName) (dc : DomainConnection)
    (h : mp.get network = Except.ok dc) : (network, dc) ∈ mp.chainMap := by
  unfold MultiProvider.get at h
  cases hfind : mp.chainMap.find? (fun kv => kv.1 = network) with
  | none => rw [hfind] at h; exact absurd h (by simp)
  | some kv =>
    rw [hfind] at h
    simp only [Except.ok.injEq] at h
    have hm := List.mem_of_find?_eq_some hfind
    have hp := List.find?_some hfind
    simp only [decide_eq_true_eq] at hp
    have hkv : kv = (network, dc) := by
      cases kv
      simp_all
    exact hkv ▸ hm

theorem find?_map_update (l : List (ChainName × DomainConnection))
    (network other : ChainName) (f : DomainConnection → DomainConnection)
    (h : other ≠ network) :
    (l.map (fun kv => if kv.1 = network then (kv.1, f kv.2) else kv)).find?
        (fun kv => kv.1 = other)
      = l.find? (fun kv => kv.1 = other) := by
  induction l with
  | nil => rfl
  | cons kv t ih =>
    simp only [List.map_cons]
    by_cases ho : kv.1 = other
    · have hn : ¬ kv.1 = network := fun hk => h (ho ▸ hk ▸ rfl)
      rw [if_neg hn]
      rw [List.find?_cons_of_pos _ (by simpa using ho),
        List.find?_cons_of_pos _ (by simpa using ho)]
    · have hfst : (if kv.1 = network then (kv.1, f kv.2) else kv).1 = kv.1 := by
        by_cases hk : kv.1 = network
        · simp [hk]
        · simp [hk]
      rw [List.find?_cons_of_neg _ (by simp [hfst, ho]),
        List.find?_cons_of_neg _ (by simpa using ho)]
      exact ih

theorem get_updateChain_other (mp : MultiProvider) (network other : ChainName)
    (f : DomainConnection → DomainConnection) (h : other ≠ network) :
    (mp.updateChain network f).get other = mp.get other := by
  unfold MultiProvider.get MultiProvider.updateChain
  rw [find?_map_update mp.chainMap network other f h]

/-! ## Claim theorems -/

/-- C1: the claimed signer/provider re-association fails on the code.
Starting from an empty record, after `registerSigner ⟨1, none⟩` followed by
`registerProvider ⟨7, ok⟩` (and likewise in the reverse order) the record
holds provider `⟨7, ok⟩` and the ORIGINAL signer `⟨1, none⟩`, whose own
provider binding is still `none`: `registerProvider`/`registerSigner`
evaluate `Signer.connect` — a pure operation returning a new connected
signer — and discard the result, so the stored signer is never associated
with the stored provider. -/
theorem register_connect_result_discarded :
    ((((DomainConnection.create {}).registerSigner ⟨1, none⟩).registerProvider
        ⟨7, Except.ok ()⟩).signer = some ⟨1, none⟩
      ∧ (((DomainConnection.create {}).registerSigner ⟨1, none⟩).registerProvider
          ⟨7, Except.ok ()⟩).provider = some ⟨7, Except.ok ()⟩)
    ∧ ((((DomainConnection.create {}).registerProvider ⟨7, Except.ok ()⟩).registerSigner
        ⟨1, none⟩).signer = some ⟨1, none⟩
      ∧ (((DomainConnection.create {}).registerProvider ⟨7, Except.ok ()⟩).registerSigner
          ⟨1, none⟩).provider = some ⟨7, Except.ok ()⟩)
    ∧ (Signer.mk 1 none).provider ≠ some ⟨7, Except.ok ()⟩ := by
  decide

/-- C2: `ready()` resolves exactly when every record in the registry holds
a registered provider whose readiness check succeeds; otherwise it fails,
and the failure it rejects with is one of the per-record failures
(the fault from the non-null assertion on an absent provider, or the
propagated readiness error). -/
theorem ready_resolves_iff (mp : MultiProvider) :
    ((∃ l, mp.ready = Except.ok l)
        ↔ ∀ dc ∈ mp.values, ∃ p, dc.provider = some p ∧ p.ready = Except.ok ())
    ∧ (∀ e, mp.ready = Except.error e
        → ∃ dc ∈ mp.values, dc.providerReady = Except.error e) := by
  constructor
  · refine (ready_list_ok_iff mp.values).trans ?_
    constructor
    · intro h dc hdc
      exact (providerReady_ok_iff dc).mp (h dc hdc)
    · intro h dc hdc
      exact (providerReady_ok_iff dc).mpr (h dc hdc)
  · intro e he
    exact ready_list_error_mem mp.values e he

/-- C2 witness: on a one-network registry whose record holds a reachable
provider, `ready()` resolves. -/
theorem ready_resolves_iff_witness :
    ∃ l, (MultiProvider.mk [("alfajores",
        { provider := some ⟨0, Except.ok ()⟩, signer := none,
          overrides := [], confirmations := 0 })]).ready = Except.ok l := by
  apply (ready_resolves_iff _).1.mpr
  intro dc hdc
  simp only [MultiProvider.values, List.map_cons, List.map_nil,
    List.mem_singleton] at hdc
  subst hdc
  exact ⟨⟨0, Except.ok ()⟩, rfl, rfl⟩

/-- C3: `getConnection` returns the signer whenever one is registered
(whether or not a provider is present), the provider when only a provider
is present, and nothing when neither is present. -/
theorem getConnection_precedence (dc : DomainConnection) :
    (∀ s, dc.signer = some s → dc.getConnection = some (Connection.signer s))
    ∧ (∀ p, dc.signer = none → dc.provider = some p →
        dc.getConnection = some (Connection.provider p))
    ∧ (dc.signer = none → dc.provider = none → dc.getConnection = none) := by
  refine ⟨?_, ?_, ?_⟩
  · intro s hs
    simp [DomainConnection.getConnection, hs]
  · intro p hs hp
    simp [DomainConnection.getConnection, hs, hp]
  · intro hs hp
    simp [DomainConnection.getConnection, hs, hp]

/-- C3 witness: on a record holding both a signer and a provider,
`getConnection` returns the signer. -/
theorem getConnection_precedence_witness :
    ({ provider := some ⟨2, Except.ok ()⟩, signer := some ⟨5, none⟩,
       overrides := [], confirmations := 0 } : DomainConnection).getConnection
      = some (Connection.signer ⟨5, none⟩) :=
  (getConnection_precedence _).1 ⟨5, none⟩ rfl

/-- C9: every network in the static configuration table has a
non-negative `confirmations` count, and its `overrides` mapping mentions
only the recognized fee fields `gasPrice` and `gasLimit`. -/
theorem configs_wellformed :
    ∀ nc ∈ configs, 0 ≤ nc.2.confirmations
      ∧ ∀ kv ∈ nc.2.overrides, kv.1 = "gasPrice" ∨ kv.1 = "gasLimit" := by
  decide

/-- C9 witness: instantiated at the `kovan` entry and its `gasLimit`
override field. -/
theorem configs_wellformed_witness :
    0 ≤ kovan.confirmations
    ∧ (("gasLimit", (15000000 : Int)).1 = "gasPrice"
        ∨ ("gasLimit", (15000000 : Int)).1 = "gasLimit") :=
  ⟨(configs_wellformed ("kovan", kovan) (by decide)).1,
   (configs_wellformed ("kovan", kovan) (by decide)).2 ("gasLimit", 15000000) (by decide)⟩

/-- C4: constructing the registry from a list of distinct network
identifiers yields exactly one record per identifier, in list order, each
with provider and signer absent, overrides empty, and confirmations 0. -/
theorem construct_from_list_defaults (ns : List ChainName) (h : ns.Nodup) :
    (MultiProvider.construct (NetworksInput.list ns)).chainMap
        = ns.map (fun n =>
          (n, ({ provider := none, signer := none, overrides := [], confirmations := 0 } : DomainConnection)))
    ∧ (MultiProvider.construct (NetworksInput.list ns)).chainMap.length = ns.length := by
  have he : (MultiProvider.construct (NetworksInput.list ns)).chainMap
      = fromEntries ((ns.map (fun v => (v, ({} : IDomainConnection)))).map
          (fun nv => (nv.1, DomainConnection.create nv.2))) := rfl
  have hkeys : ((ns.map (fun v => (v, ({} : IDomainConnection)))).map
      (fun nv => (nv.1, DomainConnection.create nv.2))).map Prod.fst = ns := by
    simp [List.map_map, Function.comp_def]
  rw [he, fromEntries_of_nodup_keys _ (by rw [hkeys]; exact h)]
  constructor
  · simp [List.map_map, Function.comp_def, DomainConnection.create]
  · simp

/-- C4 witness: instantiated at the two-network list
`["alfajores", "fuji"]`. -/
theorem construct_from_list_defaults_witness :
    (["alfajores", "fuji"] : List ChainName).Nodup
    ∧ (MultiProvider.construct (NetworksInput.list ["alfajores", "fuji"])).chainMap
        = [("alfajores",
            ({ provider := none, signer := none, overrides := [], confirmations := 0 } : DomainConnection)),
           ("fuji",
            ({ provider := none, signer := none, overrides := [], confirmations := 0 } : DomainConnection))]
    ∧ (MultiProvider.construct
        (NetworksInput.list ["alfajores", "fuji"])).chainMap.length = 2 := by
  have hnd : (["alfajores", "fuji"] : List ChainName).Nodup := by decide
  have h := construct_from_list_defaults ["alfajores", "fuji"] hnd
  exact ⟨hnd, by rw [h.1]; rfl, h.2⟩

/-- C5: constructing the registry from a mapping yields one record per
entry; every supplied field keeps its supplied value and every absent
field takes the list-construction default (provider/signer absent,
overrides empty, confirmations 0). -/
theorem construct_from_map_preserves (m : List (ChainName × IDomainConnection))
    (h : (m.map Prod.fst).Nodup) :
    (MultiProvider.construct (NetworksInput.map m)).chainMap
      = m.map (fun nv => (nv.1,
          ({ provider := nv.2.provider, signer := nv.2.signer,
             overrides := nv.2.overrides.getD [],
             confirmations := nv.2.confirmations.getD 0 } : DomainConnection))) := by
  have he : (MultiProvider.construct (NetworksInput.map m)).chainMap
      = fromEntries (m.map (fun nv => (nv.1, DomainConnection.create nv.2))) := rfl
  have hkeys : (m.map (fun nv => (nv.1, DomainConnection.create nv.2))).map Prod.fst
      = m.map Prod.fst := by
    simp [List.map_map, Function.comp_def]
  rw [he, fromEntries_of_nodup_keys _ (by rw [hkeys]; exact h)]
  rfl

/-- C5 witness: a two-entry mapping, one entry with supplied
confirmations and overrides, one fully defaulted. -/
theorem construct_from_map_preserves_witness :
    (([(("a" : ChainName),
        ({ confirmations := some 5, overrides := some [("gasPrice", 3)] } : IDomainConnection)),
        ("b", {})]).map Prod.fst).Nodup
    ∧ (MultiProvider.construct (NetworksInput.map
          [("a", { confirmations := some 5, overrides := some [("gasPrice", 3)] }),
           ("b", {})])).chainMap
        = [("a",
            ({ provider := none, signer := none, overrides := [("gasPrice", 3)],
               confirmations := 5 } : DomainConnection)),
           ("b",
            ({ provider := none, signer := none, overrides := [],
               confirmations := 0 } : DomainConnection))] := by
  refine ⟨by decide, ?_⟩
  rw [construct_from_map_preserves _ (by decide)]
  rfl

/-- C6: `getChains(list)` returns exactly the (identifier, record) pairs
of the registry whose identifier occurs in the query list, as a sublist
of the registry entries (so in registry iteration order); identifiers in
the query list that were never configured are silently omitted. -/
theorem getChains_filters_entries (mp : MultiProvider) (chains : List ChainName) :
    (mp.getChains chains).Sublist mp.entries
    ∧ (∀ e, e ∈ mp.getChains chains ↔ e ∈ mp.entries ∧ e.1 ∈ chains) := by
  constructor
  · exact List.filter_sublist _
  · intro e
    simp [MultiProvider.getChains, List.mem_filter]

/-- C6 witness: on the registry `["a", "b", "c"]`, the query
`["a", "c", "z"]` returns the `a` and `c` entries in that order; the
unconfigured `"z"` is silently dropped. -/
theorem getChains_filters_entries_witness :
    ((MultiProvider.construct (NetworksInput.list ["a", "b", "c"])).getChains
        ["a", "c", "z"]).Sublist
      (MultiProvider.construct (NetworksInput.list ["a", "b", "c"])).entries
    ∧ (MultiProvider.construct (NetworksInput.list ["a", "b", "c"])).getChains
        ["a", "c", "z"]
      = [("a",
          ({ provider := none, signer := none, overrides := [], confirmations := 0 } : DomainConnection)),
         ("c",
          ({ provider := none, signer := none, overrides := [], confirmations := 0 } : DomainConnection))] :=
  ⟨(getChains_filters_entries _ _).1, by decide⟩

/-- C7: `registerOverrides` and `registerConfirmations` replace the
targeted field wholesale and leave the other fields of the record
unchanged; through the registry, updating one network's record leaves
every other network's record untouched; in particular on the registry
built from `["alfajores", "fuji"]`, after registering 5 confirmations on
`alfajores` that record reads 5 while `fuji` still reads 0. -/
theorem register_replaces_wholesale (dc : DomainConnection) (o : Overrides) (n : Int)
    (mp : MultiProvider) (network other : ChainName) (hne : other ≠ network) :
    (dc.registerOverrides o).overrides = o
    ∧ (dc.registerOverrides o).provider = dc.provider
    ∧ (dc.registerOverrides o).signer = dc.signer
    ∧ (dc.registerOverrides o).confirmations = dc.confirmations
    ∧ (dc.registerConfirmations n).confirmations = n
    ∧ (dc.registerConfirmations n).provider = dc.provider
    ∧ (dc.registerConfirmations n).signer = dc.signer
    ∧ (dc.registerConfirmations n).overrides = dc.overrides
    ∧ ((mp.updateChain network (fun d => d.registerConfirmations n)).get other
        = mp.get other)
    ∧ (((MultiProvider.construct (NetworksInput.list ["alfajores", "fuji"])).updateChain
          "alfajores" (fun d => d.registerConfirmations 5)).get "alfajores").map
        DomainConnection.confirmations = Except.ok 5
    ∧ (((MultiProvider.construct (NetworksInput.list ["alfajores", "fuji"])).updateChain
          "alfajores" (fun d => d.registerConfirmations 5)).get "fuji").map
        DomainConnection.confirmations = Except.ok 0 := by
  refine ⟨rfl, rfl, rfl, rfl, rfl, rfl, rfl, rfl, ?_, ?_, ?_⟩
  · exact get_updateChain_other mp network other _ hne
  · decide
  · decide

/-- C7 witness: on the `["alfajores", "fuji"]` registry, registering
confirmations on `alfajores` leaves the `fuji` record unchanged. -/
theorem register_replaces_wholesale_witness :
    ((MultiProvider.construct (NetworksInput.list ["alfajores", "fuji"])).updateChain
        "alfajores" (fun d => d.registerConfirmations 5)).get "fuji"
      = (MultiProvider.construct (NetworksInput.list ["alfajores", "fuji"])).get "fuji" :=
  (register_replaces_wholesale (DomainConnection.create {}) [] 5
      (MultiProvider.construct (NetworksInput.list ["alfajores", "fuji"]))
      "alfajores" "fuji" (by decide)).2.2.2.2.2.2.2.2.1

/-- C8: on a registry constructed from a list of identifiers,
`getDomainConnection` (i.e. `get`) returns the stored record for every
identifier that was part of construction, and fails with a lookup error —
never a silent default — for every identifier that was not. -/
theorem get_lookup_contract (ns : List ChainName) (network : ChainName) :
    (network ∈ ns →
      ∃ dc, (MultiProvider.construct (NetworksInput.list ns)).getDomainConnection network
          = Except.ok dc
        ∧ (network, dc) ∈ (MultiProvider.construct (NetworksInput.list ns)).chainMap)
    ∧ (network ∉ ns →
      (MultiProvider.construct (NetworksInput.list ns)).getDomainConnection network
        = Except.error ("No value found for network " ++ network)) := by
  have hkeys : ∀ k, (k ∈ (MultiProvider.construct
      (NetworksInput.list ns)).chainMap.map Prod.fst ↔ k ∈ ns) := by
    intro k
    have he : (MultiProvider.construct (NetworksInput.list ns)).chainMap
        = fromEntries ((ns.map (fun v => (v, ({} : IDomainConnection)))).map
            (fun nv => (nv.1, DomainConnection.create nv.2))) := rfl
    rw [he, mem_keys_fromEntries]
    simp [List.map_map, Function.comp_def]
  constructor
  · intro hmem
    obtain ⟨dc, hdc⟩ := (get_ok_iff_mem_keys _ network).mpr ((hkeys network).mpr hmem)
    exact ⟨dc, hdc, get_ok_mem _ _ _ hdc⟩
  · intro hnot
    exact get_error_of_not_mem_keys _ _ (fun hc => hnot ((hkeys network).mp hc))

/-- C8 witness: looking up the unconfigured identifier `"zzz"` on the
`["alfajores", "fuji"]` registry fails with the lookup error. -/
theorem get_lookup_contract_witness :
    (MultiProvider.construct
        (NetworksInput.list ["alfajores", "fuji"])).getDomainConnection "zzz"
      = Except.error ("No value found for network " ++ "zzz") :=
  (get_lookup_contract ["alfajores", "fuji"] "zzz").2 (by decide)

/-- C10: constructing the registry from a list with duplicate identifiers
does not fail; the keyed container ends up with pairwise-distinct keys,
its key set is exactly the set of identifiers occurring in the list, and
every stored record is the default record. -/
theorem construct_from_list_dupes (ns : List ChainName) :
    ((MultiProvider.construct (NetworksInput.list ns)).chainMap.map Prod.fst).Nodup
    ∧ (∀ k, k ∈ (MultiProvider.construct (NetworksInput.list ns)).chainMap.map Prod.fst
        ↔ k ∈ ns)
    ∧ (∀ e ∈ (MultiProvider.construct (NetworksInput.list ns)).chainMap,
        e.2 = ({ provider := none, signer := none, overrides := [],
                 confirmations := 0 } : DomainConnection)) := by
  have he : (MultiProvider.construct (NetworksInput.list ns)).chainMap
      = fromEntries ((ns.map (fun v => (v, ({} : IDomainConnection)))).map
          (fun nv => (nv.1, DomainConnection.create nv.2))) := rfl
  refine ⟨?_, ?_, ?_⟩
  · rw [he]
    exact nodup_keys_fromEntries _
  · intro k
    rw [he, mem_keys_fromEntries]
    simp [List.map_map, Function.comp_def]
  · intro e hemem
    rw [he] at hemem
    have hl := mem_fromEntries _ e hemem
    obtain ⟨nv, hnv, hnve⟩ := List.mem_map.mp hl
    obtain ⟨n, _, rfl⟩ := List.mem_map.mp hnv
    rw [← hnve]
    rfl

/-- C10 witness: instantiated at the duplicate-bearing list
`["a", "b", "a"]` and the key `"a"`. -/
theorem construct_from_list_dupes_witness :
    ((MultiProvider.construct
        (NetworksInput.list ["a", "b", "a"])).chainMap.map Prod.fst).Nodup
    ∧ ("a" ∈ (MultiProvider.construct
          (NetworksInput.list ["a", "b", "a"])).chainMap.map Prod.fst
        ↔ "a" ∈ (["a", "b", "a"] : List ChainName)) :=
  ⟨(construct_from_list_dupes ["a", "b", "a"]).1,
   (construct_from_list_dupes ["a", "b", "a"]).2.1 "a"⟩
